import Mathlib

/-!
Verification of the HR data-analysis pipeline (explore.py).

The development shallowly embeds the in-memory core of the pipeline:
the identity reindexer, the dataset unifier (concat + inner join on the
row key + column drop + sort by key), the schema validator and the
analytical queries (grouped employee metrics, the department/salary
median pivot with its filter, and the top-10-by-hours ranking).

Tables are lists of rows; rows are records with the columns the three
sources carry.  Numeric scalars are modelled as exact rationals; the
half-to-even rounding used by the library's round(2) is modelled
exactly on rationals.  The sample standard deviation is the square
root of the (exact, rational) ddof = 1 variance; the variance is kept
in the computable result record and the square root is applied at
statement level (see reported_std).
-/

/-! ### Pure helpers: rounding, mean, median, sample variance, sorting -/

/-- Round a rational to the nearest integer, ties to even (the rounding
used by the pandas/numpy round function, modelled exactly on ℚ). -/
def roundEven (q : ℚ) : ℤ :=
  let f : ℤ := ⌊q⌋
  let r : ℚ := q - f
  if r < 1/2 then f
  else if 1/2 < r then f + 1
  else if f % 2 = 0 then f else f + 1

/-- Round to two decimal places, ties to even: the model of round(2). -/
def round2 (q : ℚ) : ℚ := (roundEven (q * 100) : ℚ) / 100

/-- Insert an element into a list so that it lands before the first
element b with le a b; the building block of a stable insertion sort. -/
def insertBy {α : Type} (le : α → α → Bool) (a : α) : List α → List α
  | [] => [a]
  | b :: l => if le a b then a :: b :: l else b :: insertBy le a l

/-- Stable insertion sort with respect to a boolean comparison le:
elements equivalent under le keep their original relative order. -/
def sortLeBy {α : Type} (le : α → α → Bool) : List α → List α
  | [] => []
  | a :: l => insertBy le a (sortLeBy le l)

/-- Median of a list of rationals as pandas computes it: the middle
element of the sorted list, or the average of the two middle elements
when the length is even.  Junk value 0 on the empty list (callers
guard against that case). -/
def medianQ (l : List ℚ) : ℚ :=
  let s := sortLeBy (fun a b => a ≤ b) l
  let n := s.length
  if n % 2 = 1 then s.getD (n / 2) 0
  else (s.getD (n / 2 - 1) 0 + s.getD (n / 2) 0) / 2

/-- Arithmetic mean of a list of rationals (0 on the empty list). -/
def meanQ (l : List ℚ) : ℚ := l.sum / l.length

/-- Sample variance with ddof = 1 (the square of the pandas std
aggregate); none on lists of fewer than two elements, where pandas
reports NaN. -/
def sampleVar (l : List ℚ) : Option ℚ :=
  if l.length < 2 then none
  else some (((l.map (fun x => (x - meanQ l) ^ 2)).sum) / ((l.length : ℚ) - 1))

/-! ### Code-point lexicographic string order

Python compares strings lexicographically by code point; row keys of
the unified dataset are strings and sort_index uses this order.  The
comparison is defined on the underlying character lists so that it
evaluates by kernel reduction. -/

/-- Strict code-point lexicographic order on character lists. -/
def charListLt : List Char → List Char → Bool
  | [], [] => false
  | [], _ :: _ => true
  | _ :: _, [] => false
  | a :: s, b :: t =>
    if a.toNat < b.toNat then true
    else if b.toNat < a.toNat then false
    else charListLt s t

/-- Reflexive code-point lexicographic order on character lists. -/
def charListLe : List Char → List Char → Bool
  | [], _ => true
  | _ :: _, [] => false
  | a :: s, b :: t =>
    if a.toNat < b.toNat then true
    else if b.toNat < a.toNat then false
    else charListLe s t

/-- Strict lexicographic order on strings (Python string <). -/
def strLt (s t : String) : Bool := charListLt s.data t.data

/-- Reflexive lexicographic order on strings (Python string <=). -/
def strLe (s t : String) : Bool := charListLe s.data t.data

/-! ### Data model: the three source tables

The two office tables carry the descriptive columns plus the raw
per-office numeric id employee_office_id; the hr table carries the
satisfaction/evaluation/attrition columns plus the raw key
employee_id, which in the data is already the prefixed string compared
against office keys at join time. -/

structure OfficeRow where
  number_project : ℕ
  average_monthly_hours : ℚ
  time_spend_company : ℕ
  Work_accident : ℕ
  promotion_last_5years : ℕ
  Department : String
  salary : String
  employee_office_id : ℕ
deriving DecidableEq, Repr

structure HrRow where
  employee_id : String
  satisfaction_level : ℚ
  last_evaluation : ℚ
  left : ℕ
deriving DecidableEq, Repr

/-- Row of the unified dataset: the union of office and hr columns
minus the two raw identifier columns, keyed by the derived string key. -/
structure UnifiedRow where
  key : String
  number_project : ℕ
  average_monthly_hours : ℚ
  time_spend_company : ℕ
  Work_accident : ℕ
  promotion_last_5years : ℕ
  Department : String
  salary : String
  satisfaction_level : ℚ
  last_evaluation : ℚ
  left : ℕ
deriving DecidableEq, Repr

/-- Column names of an office table, in source order. -/
def officeColumns : List String :=
  ["number_project", "average_monthly_hours", "time_spend_company",
   "Work_accident", "promotion_last_5years", "Department", "salary",
   "employee_office_id"]

/-- Column names the hr table still has after set_index consumed
employee_id. -/
def hrValueColumns : List String :=
  ["satisfaction_level", "last_evaluation", "left"]

/-- A dataset as the queries see it: the list of column names (the
schema the validator inspects) together with the rows. -/
structure Dataset where
  cols : List String
  rows : List UnifiedRow
deriving DecidableEq, Repr

/-! ### Identity Reindexer (reindex_dataframes) -/

/-- Model of the office reindexing step: each row is keyed by the
literal prefix ("A" or "B") concatenated with the decimal string of
its employee_office_id, in original row order.  Mirrors
df.index = [f-prefix-x for x in df[employee_office_id]]. -/
def reindex_office (pfx : String) (t : List OfficeRow) : List (String × OfficeRow) :=
  t.map (fun r => (pfx ++ Nat.repr r.employee_office_id, r))

/-- Model of hr_data.set_index(employee_id): each row keyed by its raw
employee_id value, in original row order. -/
def reindex_hr (t : List HrRow) : List (String × HrRow) :=
  t.map (fun r => (r.employee_id, r))

/-- The three re-keyed tables produced by reindex_dataframes. -/
structure ReindexedData where
  a_office_data : List (String × OfficeRow)
  b_office_data : List (String × OfficeRow)
  hr_data : List (String × HrRow)
deriving DecidableEq, Repr

/-- Model of reindex_dataframes: office A keys get prefix "A", office B
keys prefix "B", hr keys are the raw employee_id values.  No
uniqueness check of any kind is performed. -/
def reindex_dataframes (a b : List OfficeRow) (hr : List HrRow) : ReindexedData :=
  ⟨reindex_office "A" a, reindex_office "B" b, reindex_hr hr⟩

/-! ### Dataset Unifier (generate_unified_dataset) -/

/-- Inner join on the row key, left-major order: every office row is
paired with every hr row bearing the same key (pandas merge with
left_index = right_index = True, how = inner). -/
def mergeInner (ofc : List (String × OfficeRow)) (hr : List (String × HrRow)) :
    List (String × OfficeRow × HrRow) :=
  ofc.flatMap (fun kr => (hr.filter (fun kh => kh.1 = kr.1)).map (fun kh => (kr.1, kr.2, kh.2)))

/-- Assemble a unified row from a joined (key, office, hr) triple; the
raw identifier columns are the ones dropped by the source and are not
part of the record. -/
def mkUnifiedRow (k : String) (o : OfficeRow) (h : HrRow) : UnifiedRow :=
  { key := k
    number_project := o.number_project
    average_monthly_hours := o.average_monthly_hours
    time_spend_company := o.time_spend_company
    Work_accident := o.Work_accident
    promotion_last_5years := o.promotion_last_5years
    Department := o.Department
    salary := o.salary
    satisfaction_level := h.satisfaction_level
    last_evaluation := h.last_evaluation
    left := h.left }

/-- Columns of the unified dataset: office columns followed by hr value
columns, with the raw identifier columns dropped if present. -/
def unifiedColumns : List String :=
  (officeColumns ++ hrValueColumns).filter
    (fun c => ¬(c = "employee_office_id" ∨ c = "employee_id"))

/-- Model of generate_unified_dataset: concatenate the two office
tables row-wise, inner-join against hr on the key, drop the raw
identifier columns, and sort rows ascending by key (lexical string
order).  The function is total: no degenerate-input check exists. -/
def generate_unified_dataset (d : ReindexedData) : Dataset :=
  let concatenated := d.a_office_data ++ d.b_office_data
  let merged := mergeInner concatenated d.hr_data
  let dropped := merged.map (fun x => mkUnifiedRow x.1 x.2.1 x.2.2)
  { cols := unifiedColumns
    rows := sortLeBy (fun r s => strLe r.key s.key) dropped }

/-! ### Schema Validator (validate_dataset) -/

/-- The fixed ten-column required set checked before the grouped
metrics query. -/
def required_columns : List String :=
  ["number_project", "average_monthly_hours", "time_spend_company",
   "Work_accident", "promotion_last_5years", "Department", "salary",
   "satisfaction_level", "last_evaluation", "left"]

/-- The required columns absent from a dataset, in required order
(the missing_columns list the validator logs). -/
def missing_columns (ds : Dataset) : List String :=
  required_columns.filter (fun c => ¬ c ∈ ds.cols)

/-- Model of validate_dataset: true exactly when no required column is
missing; performs no correction. -/
def validate_dataset (ds : Dataset) : Bool :=
  missing_columns ds = []

/-! ### Grouped employee metrics (employees_metrics / count_bigger_5) -/

/-- Model of count_bigger_5: the number of values strictly greater
than 5 in a number_project series. -/
def count_bigger_5 (l : List ℕ) : ℕ := (l.filter (fun x => 5 < x)).length

/-- Aggregates reported per left-group by employees_metrics, after
round(2).  The last_evaluation spread is carried as the exact ddof = 1
sample variance so the record stays computable; the reported standard
deviation is its square root rounded to two decimals, applied at
statement level by reported_std. -/
structure GroupMetrics where
  number_project_median : ℚ
  number_project_count_bigger_5 : ℕ
  time_spend_company_mean : ℚ
  time_spend_company_median : ℚ
  work_accident_mean : ℚ
  last_evaluation_mean : ℚ
  last_evaluation_var : Option ℚ
deriving DecidableEq, Repr

/-- Aggregation of one left-group, mirroring the agg dictionary of
employees_metrics followed by round(2). -/
def aggGroup (rows : List UnifiedRow) : GroupMetrics :=
  { number_project_median :=
      round2 (medianQ (rows.map (fun r => (r.number_project : ℚ))))
    number_project_count_bigger_5 :=
      count_bigger_5 (rows.map (fun r => r.number_project))
    time_spend_company_mean :=
      round2 (meanQ (rows.map (fun r => (r.time_spend_company : ℚ))))
    time_spend_company_median :=
      round2 (medianQ (rows.map (fun r => (r.time_spend_company : ℚ))))
    work_accident_mean :=
      round2 (meanQ (rows.map (fun r => (r.Work_accident : ℚ))))
    last_evaluation_mean :=
      round2 (meanQ (rows.map (fun r => r.last_evaluation)))
    last_evaluation_var :=
      sampleVar (rows.map (fun r => r.last_evaluation)) }

/-- Distinct values of the left column in ascending order: the group
keys a pandas groupby(left) produces. -/
def groupKeys (rows : List UnifiedRow) : List ℕ :=
  (sortLeBy (fun a b => a ≤ b) (rows.map (fun r => r.left))).dedup

/-- Model of employees_metrics: validate the schema, then group the
rows by the attrition flag left and aggregate each group.  Raises
(ValueError) when validation fails. -/
def employees_metrics (ds : Dataset) : Except String (List (ℕ × GroupMetrics)) :=
  if validate_dataset ds then
    Except.ok ((groupKeys ds.rows).map
      (fun g => (g, aggGroup (ds.rows.filter (fun r => r.left = g)))))
  else Except.error "Dataset validation failed"

open Classical in
/-- Half-to-even rounding on ℝ, for statement-level use on the
irrational standard deviation. -/
noncomputable def roundEvenR (x : ℝ) : ℤ :=
  if x - ⌊x⌋ < 1/2 then ⌊x⌋
  else if 1/2 < x - ⌊x⌋ then ⌊x⌋ + 1
  else if ⌊x⌋ % 2 = 0 then ⌊x⌋ else ⌊x⌋ + 1

/-- Two-decimal half-to-even rounding on ℝ. -/
noncomputable def round2R (x : ℝ) : ℝ := (roundEvenR (x * 100) : ℝ) / 100

/-- The standard deviation the source reports for a group: the square
root of the ddof = 1 sample variance, rounded to two decimals (none
when the group has fewer than two rows, where pandas reports NaN). -/
noncomputable def reported_std (m : GroupMetrics) : Option ℝ :=
  m.last_evaluation_var.map (fun v => round2R (Real.sqrt (v : ℝ)))

/-! ### Department salary pivot (median_salaries_by_department) -/

/-- One cell of the first pivot table: the median average_monthly_hours
over the rows of one (Department, left, salary) combination, rounded
to two decimals; none when no row matches (a NaN cell). -/
def pivotCell (rows : List UnifiedRow) (dept : String) (lf : ℕ) (sal : String) : Option ℚ :=
  let hrs := (rows.filter
    (fun r => r.Department = dept ∧ r.left = lf ∧ r.salary = sal)).map
      (fun r => r.average_monthly_hours)
  if hrs.isEmpty then none else some (round2 (medianQ hrs))

/-- The (left, salary) pairs observed in the data: the pivot table has
a column exactly for each observed combination, and selecting an
unobserved combination raises KeyError. -/
def observedCombos (rows : List UnifiedRow) : List (ℕ × String) :=
  rows.map (fun r => (r.left, r.salary))

/-- Distinct departments in ascending lexical order: the row index of
the pivot table. -/
def departmentsSorted (rows : List UnifiedRow) : List String :=
  (sortLeBy strLe (rows.map (fun r => r.Department))).dedup

/-- The filter of the first pivot: keep a department when the stayed
high-salary median is strictly below the stayed medium-salary median,
or the left low-salary median is strictly below the left high-salary
median; a NaN in a compared cell makes that comparison false. -/
def salaryCondition (rows : List UnifiedRow) (d : String) : Bool :=
  (match pivotCell rows d 0 "high", pivotCell rows d 0 "medium" with
   | some a, some b => a < b
   | _, _ => false) ||
  (match pivotCell rows d 1 "low", pivotCell rows d 1 "high" with
   | some a, some b => a < b
   | _, _ => false)

/-- Model of median_salaries_by_department: build the pivot of median
average_monthly_hours with Department rows and (left, salary) columns,
then keep the departments passing salaryCondition.  Selecting a
globally unobserved (left, salary) column raises KeyError, in the
order the source evaluates the four column lookups. -/
def median_salaries_by_department (ds : Dataset) :
    Except String (List (String × List ((ℕ × String) × ℚ))) :=
  let rows := ds.rows
  if ¬ (0, "high") ∈ observedCombos rows then Except.error "KeyError: (0, high)"
  else if ¬ (0, "medium") ∈ observedCombos rows then Except.error "KeyError: (0, medium)"
  else if ¬ (1, "low") ∈ observedCombos rows then Except.error "KeyError: (1, low)"
  else if ¬ (1, "high") ∈ observedCombos rows then Except.error "KeyError: (1, high)"
  else Except.ok
    (((departmentsSorted rows).filter (fun d => salaryCondition rows d)).map
      (fun d => (d, (observedCombos rows).dedup.filterMap
        (fun c => (pivotCell rows d c.1 c.2).map (fun v => (c, v))))))

/-! ### Top-10-by-hours ranking (top_10_departments_by_hours) -/

/-- Comparison placing larger hours first; ties keep original order
under the stable sort (pandas nlargest with keep = first). -/
def hoursDescLe (r s : UnifiedRow) : Bool := s.average_monthly_hours ≤ r.average_monthly_hours

/-- Model of top_10_departments_by_hours: the Department values of the
10 rows with the largest average_monthly_hours, in descending order of
hours, ties broken by original row order; with fewer than 10 rows all
rows are returned. -/
def top_10_departments_by_hours (ds : Dataset) : List String :=
  ((sortLeBy hoursDescLe ds.rows).take 10).map (fun r => r.Department)

/-! ### Lemmas about the stable insertion sort -/

theorem insertBy_perm {α : Type} (le : α → α → Bool) (a : α) (l : List α) :
    List.Perm (insertBy le a l) (a :: l) := by
  induction l with
  | nil => exact List.Perm.refl _
  | cons b t ih =>
    rw [insertBy]
    by_cases h : le a b
    · rw [if_pos h]
    · rw [if_neg h]
      exact (List.Perm.cons b ih).trans (List.Perm.swap a b t)

theorem sortLeBy_perm {α : Type} (le : α → α → Bool) (l : List α) :
    List.Perm (sortLeBy le l) l := by
  induction l with
  | nil => exact List.Perm.refl _
  | cons a t ih => exact (insertBy_perm le a (sortLeBy le t)).trans (List.Perm.cons a ih)

theorem mem_insertBy {α : Type} {le : α → α → Bool} {a x : α} {l : List α} :
    x ∈ insertBy le a l ↔ x = a ∨ x ∈ l := by
  rw [(insertBy_perm le a l).mem_iff, List.mem_cons]

theorem pairwise_insertBy {α : Type} {le : α → α → Bool}
    (htot : ∀ x y, le x y = true ∨ le y x = true)
    (htrans : ∀ x y z, le x y = true → le y z = true → le x z = true)
    (a : α) {l : List α} (h : l.Pairwise (fun x y => le x y = true)) :
    (insertBy le a l).Pairwise (fun x y => le x y = true) := by
  induction l with
  | nil => simp [insertBy]
  | cons b t ih =>
    rw [List.pairwise_cons] at h
    rw [insertBy]
    by_cases hab : le a b
    · rw [if_pos hab]
      refine List.pairwise_cons.mpr ⟨?_, List.pairwise_cons.mpr h⟩
      intro x hx
      rcases List.mem_cons.mp hx with rfl | hx
      · exact hab
      · exact htrans a b x hab (h.1 x hx)
    · rw [if_neg hab]
      refine List.pairwise_cons.mpr ⟨?_, ih h.2⟩
      intro x hx
      rcases mem_insertBy.mp hx with rfl | hx
      · rcases htot x b with h' | h'
        · exact absurd h' hab
        · exact h'
      · exact h.1 x hx

theorem pairwise_sortLeBy {α : Type} {le : α → α → Bool}
    (htot : ∀ x y, le x y = true ∨ le y x = true)
    (htrans : ∀ x y z, le x y = true → le y z = true → le x z = true)
    (l : List α) :
    (sortLeBy le l).Pairwise (fun x y => le x y = true) := by
  induction l with
  | nil => simp [sortLeBy]
  | cons a t ih => exact pairwise_insertBy htot htrans a ih

theorem filter_insertBy_of_pos {α : Type} {le : α → α → Bool} {p : α → Bool} {a : α}
    (hpa : p a = true) (hmv : ∀ b, p b = true → le a b = true) (l : List α) :
    (insertBy le a l).filter p = a :: l.filter p := by
  induction l with
  | nil => simp [insertBy, hpa]
  | cons b t ih =>
    rw [insertBy]
    by_cases hab : le a b
    · rw [if_pos hab]
      simp [List.filter_cons, hpa]
    · rw [if_neg hab]
      have hpb : p b = false := by
        cases hb : p b
        · rfl
        · exact absurd (hmv b hb) hab
      simp only [List.filter_cons, hpb]
      simp only [Bool.false_eq_true, if_false, ih]

theorem filter_insertBy_of_neg {α : Type} {le : α → α → Bool} {p : α → Bool} {a : α}
    (hpa : p a = false) (l : List α) :
    (insertBy le a l).filter p = l.filter p := by
  induction l with
  | nil => simp [insertBy, hpa]
  | cons b t ih =>
    rw [insertBy]
    by_cases hab : le a b
    · rw [if_pos hab]
      simp [List.filter_cons, hpa]
    · rw [if_neg hab]
      rw [List.filter_cons, List.filter_cons, ih]

theorem filter_sortLeBy {α : Type} {le : α → α → Bool} {p : α → Bool}
    (hmv : ∀ x y, p x = true → p y = true → le x y = true) (l : List α) :
    (sortLeBy le l).filter p = l.filter p := by
  induction l with
  | nil => rfl
  | cons a t ih =>
    rw [sortLeBy]
    cases hpa : p a
    · rw [filter_insertBy_of_neg hpa, ih, List.filter_cons]
      simp [hpa]
    · rw [filter_insertBy_of_pos hpa (fun b hb => hmv a b hpa hb), ih, List.filter_cons]
      simp [hpa]

/-! ### Lemmas about the lexicographic string order -/

theorem charListLe_refl : ∀ x, charListLe x x = true
  | [] => rfl
  | a :: s => by
    rw [charListLe, if_neg (lt_irrefl a.toNat), if_neg (lt_irrefl a.toNat)]
    exact charListLe_refl s

theorem charListLe_total : ∀ x y, charListLe x y = true ∨ charListLe y x = true
  | [], _ => Or.inl rfl
  | _ :: _, [] => Or.inr rfl
  | a :: s, b :: t => by
    rw [charListLe, charListLe]
    rcases Nat.lt_trichotomy a.toNat b.toNat with h | h | h
    · left
      rw [if_pos h]
    · rw [if_neg (by omega), if_neg (by omega), if_neg (by omega), if_neg (by omega)]
      exact charListLe_total s t
    · right
      rw [if_pos h]

theorem charListLe_trans :
    ∀ x y z, charListLe x y = true → charListLe y z = true → charListLe x z = true
  | [], _, _ => fun _ _ => rfl
  | _ :: _, [], _ => fun h _ => by rw [charListLe] at h; exact absurd h (by simp)
  | _ :: _, _ :: _, [] => fun _ h => by rw [charListLe] at h; exact absurd h (by simp)
  | a :: s, b :: t, c :: u => fun h1 h2 => by
    rw [charListLe] at h1 h2 ⊢
    by_cases hab : a.toNat < b.toNat <;> by_cases hbc : b.toNat < c.toNat
    · rw [if_pos (by omega)]
    · by_cases hcb : c.toNat < b.toNat
      · rw [if_neg hbc, if_pos hcb] at h2
        exact absurd h2 (by simp)
      · rw [if_pos (by omega)]
    · by_cases hba : b.toNat < a.toNat
      · rw [if_neg hab, if_pos hba] at h1
        exact absurd h1 (by simp)
      · rw [if_pos (by omega)]
    · by_cases hba : b.toNat < a.toNat
      · rw [if_neg hab, if_pos hba] at h1
        exact absurd h1 (by simp)
      · by_cases hcb : c.toNat < b.toNat
        · rw [if_neg hbc, if_pos hcb] at h2
          exact absurd h2 (by simp)
        · rw [if_neg hab, if_neg hba] at h1
          rw [if_neg hbc, if_neg hcb] at h2
          rw [if_neg (by omega), if_neg (by omega)]
          exact charListLe_trans s t u h1 h2

theorem strLe_refl (s : String) : strLe s s = true := charListLe_refl s.data

theorem strLe_total (s t : String) : strLe s t = true ∨ strLe t s = true :=
  charListLe_total s.data t.data

theorem strLe_trans {s t u : String} (h1 : strLe s t = true) (h2 : strLe t u = true) :
    strLe s u = true :=
  charListLe_trans s.data t.data u.data h1 h2

/-! ### Injectivity of the decimal rendering of the raw ids -/

theorem toDigitsCore_eq_digits (f : ℕ) :
    ∀ (n : ℕ) (acc : List Char), n < f → 0 < n →
    Nat.toDigitsCore 10 f n acc = ((Nat.digits 10 n).map Nat.digitChar).reverse ++ acc := by
  induction f with
  | zero => intro n acc h; omega
  | succ f ih =>
    intro n acc hf hn
    have hd : Nat.digits 10 n = n % 10 :: Nat.digits 10 (n / 10) :=
      Nat.digits_def' (by norm_num) hn
    simp only [Nat.toDigitsCore]
    by_cases h : n / 10 = 0
    · rw [if_pos h, hd, h]
      simp
    · rw [if_neg h]
      rw [ih (n / 10) _ (by have h10 : n / 10 < n := Nat.div_lt_self hn (by norm_num); omega)
        (Nat.pos_of_ne_zero h)]
      rw [hd]
      simp

theorem toDigits_eq_digits (n : ℕ) (hn : 0 < n) :
    Nat.toDigits 10 n = ((Nat.digits 10 n).map Nat.digitChar).reverse := by
  rw [Nat.toDigits, toDigitsCore_eq_digits (n + 1) n [] (by omega) hn, List.append_nil]

theorem digitChar_inj_lt : ∀ a, a < 10 → ∀ b, b < 10 →
    Nat.digitChar a = Nat.digitChar b → a = b := by decide

theorem map_digitChar_inj : ∀ (l1 l2 : List ℕ), (∀ d ∈ l1, d < 10) → (∀ d ∈ l2, d < 10) →
    l1.map Nat.digitChar = l2.map Nat.digitChar → l1 = l2
  | [], [], _, _, _ => rfl
  | [], _ :: _, _, _, h => by simp at h
  | _ :: _, [], _, _, h => by simp at h
  | a :: s, b :: t, h1, h2, h => by
    simp only [List.map_cons, List.cons.injEq] at h
    have hab : a = b := digitChar_inj_lt a (h1 a (by simp)) b (h2 b (by simp)) h.1
    rw [hab, map_digitChar_inj s t (fun d hd => h1 d (by simp [hd]))
      (fun d hd => h2 d (by simp [hd])) h.2]

theorem toDigits_pos_ne_toDigits_zero (n : ℕ) (hn : 0 < n) :
    Nat.toDigits 10 n ≠ Nat.toDigits 10 0 := by
  rw [toDigits_eq_digits n hn, show Nat.toDigits 10 0 = ['0'] from rfl]
  intro h
  have h2 : (Nat.digits 10 n).map Nat.digitChar = ['0'] := by
    have := congrArg List.reverse h
    simpa using this
  have hdig : Nat.digits 10 n = [0] :=
    map_digitChar_inj _ _ (fun d hd => Nat.digits_lt_base (by norm_num) hd)
      (by intro d hd; simp at hd; omega) (by rw [h2]; rfl)
  have hof := Nat.ofDigits_digits 10 n
  rw [hdig] at hof
  simp [Nat.ofDigits] at hof
  omega

theorem repr_injective : Function.Injective Nat.repr := by
  intro m n h
  have h' : Nat.toDigits 10 m = Nat.toDigits 10 n := congrArg String.data h
  rcases Nat.eq_zero_or_pos m with rfl | hm
  · rcases Nat.eq_zero_or_pos n with rfl | hn
    · rfl
    · exact absurd h'.symm (toDigits_pos_ne_toDigits_zero n hn)
  · rcases Nat.eq_zero_or_pos n with rfl | hn
    · exact absurd h' (toDigits_pos_ne_toDigits_zero m hm)
    · rw [toDigits_eq_digits m hm, toDigits_eq_digits n hn] at h'
      exact Nat.digits_inj_iff.mp (map_digitChar_inj _ _
        (fun d hd => Nat.digits_lt_base (by norm_num) hd)
        (fun d hd => Nat.digits_lt_base (by norm_num) hd)
        (List.reverse_injective h'))

theorem prefixed_key_inj (pfx : String) :
    Function.Injective (fun n : ℕ => pfx ++ Nat.repr n) := by
  intro m n h
  have hd : (pfx ++ Nat.repr m).data = (pfx ++ Nat.repr n).data := congrArg String.data h
  rw [String.data_append, String.data_append] at hd
  exact repr_injective (String.ext (List.append_cancel_left hd))

theorem a_key_ne_b_key (s t : String) : ("A" ++ s) ≠ ("B" ++ t) := by
  intro h
  have hd : ("A" ++ s).data = ("B" ++ t).data := congrArg String.data h
  rw [String.data_append, String.data_append] at hd
  have hd' : 'A' :: s.data = 'B' :: t.data := hd
  injection hd' with h1 _
  exact absurd h1 (by decide)

/-! ### Counting lemmas for the inner join -/

theorem filter_key_length {β : Type} (k : String) :
    ∀ (hrp : List (String × β)), (hrp.map Prod.fst).Nodup →
    (hrp.filter (fun kh => kh.1 = k)).length = if k ∈ hrp.map Prod.fst then 1 else 0 := by
  intro hrp hnd
  induction hrp with
  | nil => simp
  | cons p t ih =>
    rw [List.map_cons, List.nodup_cons] at hnd
    rw [List.filter_cons, List.map_cons]
    by_cases hk : p.1 = k
    · rw [if_pos (by simp [hk])]
      have ht : ¬ k ∈ t.map Prod.fst := by rw [← hk]; exact hnd.1
      rw [List.length_cons, ih hnd.2, if_neg ht, if_pos (by simp [hk])]
    · rw [if_neg (by simp [hk]), ih hnd.2]
      by_cases hm : k ∈ t.map Prod.fst
      · rw [if_pos hm, if_pos (by simp [hm])]
      · rw [if_neg hm, if_neg ?_]
        simp only [List.mem_cons, not_or]
        exact ⟨fun h => hk h.symm, hm⟩

theorem mergeInner_cons (p : String × OfficeRow) (t : List (String × OfficeRow))
    (hr : List (String × HrRow)) :
    mergeInner (p :: t) hr =
      ((hr.filter (fun kh => kh.1 = p.1)).map (fun kh => (p.1, p.2, kh.2))) ++ mergeInner t hr := by
  simp [mergeInner]

theorem mergeInner_countP (hr : List (String × HrRow)) (k : String) :
    ∀ ofc : List (String × OfficeRow),
    (mergeInner ofc hr).countP (fun x => x.1 = k) =
      ofc.countP (fun kr => kr.1 = k) * hr.countP (fun kh => kh.1 = k) := by
  intro ofc
  induction ofc with
  | nil => simp [mergeInner]
  | cons p t ih =>
    rw [mergeInner_cons, List.countP_append, List.countP_cons, ih, List.countP_map]
    by_cases hk : p.1 = k
    · have hc : ((fun (x : String × OfficeRow × HrRow) => decide (x.1 = k)) ∘
          (fun kh : String × HrRow => (p.1, p.2, kh.2))) = fun _ => true := by
        funext kh
        simp [hk]
      rw [hc, List.countP_true, List.countP_eq_length_filter, if_pos (by simp [hk])]
      have he : (hr.filter (fun kh => kh.1 = p.1)) = (hr.filter (fun kh => kh.1 = k)) := by
        rw [hk]
      rw [he, List.countP_eq_length_filter]
      ring
    · have hc : ((fun (x : String × OfficeRow × HrRow) => decide (x.1 = k)) ∘
          (fun kh : String × HrRow => (p.1, p.2, kh.2))) = fun _ => false := by
        funext kh
        simp [hk]
      rw [hc, List.countP_false, if_neg (by simp [hk])]
      simp

theorem mergeInner_length (hr : List (String × HrRow))
    (hnd : (hr.map Prod.fst).Nodup) :
    ∀ ofc : List (String × OfficeRow),
    (mergeInner ofc hr).length = (ofc.filter (fun kr => kr.1 ∈ hr.map Prod.fst)).length := by
  intro ofc
  induction ofc with
  | nil => rfl
  | cons p t ih =>
    rw [mergeInner_cons, List.length_append, List.length_map, ih,
      filter_key_length p.1 hr hnd, List.filter_cons]
    by_cases hm : p.1 ∈ hr.map Prod.fst
    · rw [if_pos hm, if_pos (by simp [hm]), List.length_cons]
      omega
    · rw [if_neg hm, if_neg (by simp [hm])]
      omega

theorem filter_fst_length {β : Type} (K : List String) :
    ∀ l : List (String × β),
    (l.filter (fun kr => kr.1 ∈ K)).length =
      ((l.map Prod.fst).filter (fun k => k ∈ K)).length := by
  intro l
  induction l with
  | nil => rfl
  | cons p t ih =>
    rw [List.map_cons, List.filter_cons, List.filter_cons]
    by_cases h : p.1 ∈ K
    · rw [if_pos (by simp [h]), if_pos (by simp [h]), List.length_cons, List.length_cons, ih]
    · rw [if_neg (by simp [h]), if_neg (by simp [h]), ih]

theorem filter_mem_length_eq_inter_card (K : List String) :
    ∀ l : List String, l.Nodup →
    (l.filter (fun k => k ∈ K)).length = (l.toFinset ∩ K.toFinset).card := by
  intro l hnd
  induction l with
  | nil => simp
  | cons a t ih =>
    rw [List.nodup_cons] at hnd
    rw [List.filter_cons, List.toFinset_cons]
    by_cases ha : a ∈ K
    · rw [if_pos (by simp [ha]), List.length_cons, ih hnd.2,
        Finset.insert_inter_of_mem (by simp [ha]),
        Finset.card_insert_of_not_mem (by simp [hnd.1])]
    · rw [if_neg (by simp [ha]), ih hnd.2, Finset.insert_inter_of_not_mem (by simp [ha])]

theorem generate_rows_eq (d : ReindexedData) :
    (generate_unified_dataset d).rows = sortLeBy (fun r s => strLe r.key s.key)
      ((mergeInner (d.a_office_data ++ d.b_office_data) d.hr_data).map
        (fun x => mkUnifiedRow x.1 x.2.1 x.2.2)) := rfl

theorem unified_length (d : ReindexedData) (hH : (d.hr_data.map Prod.fst).Nodup) :
    (generate_unified_dataset d).rows.length =
      (((d.a_office_data ++ d.b_office_data).map Prod.fst).filter
        (fun k => k ∈ d.hr_data.map Prod.fst)).length := by
  rw [generate_rows_eq, (sortLeBy_perm _ _).length_eq, List.length_map,
    mergeInner_length _ hH, filter_fst_length]

theorem reindex_office_keys_mem {pfx : String} {t : List OfficeRow} {k : String}
    (h : k ∈ (reindex_office pfx t).map Prod.fst) :
    ∃ r ∈ t, k = pfx ++ Nat.repr r.employee_office_id := by
  simp only [reindex_office, List.map_map, List.mem_map] at h
  obtain ⟨r, hr, hk⟩ := h
  exact ⟨r, hr, hk.symm⟩

theorem concat_keys_nodup {a b : List OfficeRow}
    (hA : ((reindex_office "A" a).map Prod.fst).Nodup)
    (hB : ((reindex_office "B" b).map Prod.fst).Nodup) :
    ((reindex_office "A" a ++ reindex_office "B" b).map Prod.fst).Nodup := by
  rw [List.map_append, List.nodup_append]
  refine ⟨hA, hB, ?_⟩
  intro k hkA hkB
  obtain ⟨r, _, hrA⟩ := reindex_office_keys_mem hkA
  obtain ⟨r', _, hrB⟩ := reindex_office_keys_mem hkB
  exact a_key_ne_b_key _ _ (hrA.symm.trans hrB)

/-- C1: on reindexed inputs whose derived keys are unique within each
table, the unified table has exactly one row for every key present in
both the concatenated office tables and the hr table and no other
rows, its row count is that set-intersection cardinality, and it is
bounded by min(office_A rows + office_B rows, hr rows). -/
theorem unified_rowcount_inter (a b : List OfficeRow) (hr : List HrRow)
    (hA : ((reindex_dataframes a b hr).a_office_data.map Prod.fst).Nodup)
    (hB : ((reindex_dataframes a b hr).b_office_data.map Prod.fst).Nodup)
    (hH : ((reindex_dataframes a b hr).hr_data.map Prod.fst).Nodup) :
    (generate_unified_dataset (reindex_dataframes a b hr)).rows.length =
      ((((reindex_dataframes a b hr).a_office_data ++
          (reindex_dataframes a b hr).b_office_data).map Prod.fst).toFinset ∩
        ((reindex_dataframes a b hr).hr_data.map Prod.fst).toFinset).card ∧
    (∀ k : String,
      ((generate_unified_dataset (reindex_dataframes a b hr)).rows.filter
          (fun r => r.key = k)).length =
        if k ∈ ((reindex_dataframes a b hr).a_office_data ++
              (reindex_dataframes a b hr).b_office_data).map Prod.fst ∧
            k ∈ (reindex_dataframes a b hr).hr_data.map Prod.fst
        then 1 else 0) ∧
    (generate_unified_dataset (reindex_dataframes a b hr)).rows.length ≤
      min (a.length + b.length) hr.length := by
  have hcat : (((reindex_dataframes a b hr).a_office_data ++
      (reindex_dataframes a b hr).b_office_data).map Prod.fst).Nodup :=
    concat_keys_nodup hA hB
  have hlen : (generate_unified_dataset (reindex_dataframes a b hr)).rows.length =
      ((((reindex_dataframes a b hr).a_office_data ++
          (reindex_dataframes a b hr).b_office_data).map Prod.fst).toFinset ∩
        ((reindex_dataframes a b hr).hr_data.map Prod.fst).toFinset).card := by
    rw [unified_length _ hH, filter_mem_length_eq_inter_card _ _ hcat]
  refine ⟨hlen, ?_, ?_⟩
  · intro k
    rw [← List.countP_eq_length_filter, generate_rows_eq,
      (sortLeBy_perm _ _).countP_eq, List.countP_map]
    have hcomp : ((fun r : UnifiedRow => decide (r.key = k)) ∘
        (fun x : String × OfficeRow × HrRow => mkUnifiedRow x.1 x.2.1 x.2.2)) =
        fun x : String × OfficeRow × HrRow => decide (x.1 = k) := rfl
    rw [hcomp, mergeInner_countP]
    rw [List.countP_eq_length_filter, List.countP_eq_length_filter]
    rw [filter_key_length k _ hcat, filter_key_length k _ hH]
    by_cases h1 : k ∈ ((reindex_dataframes a b hr).a_office_data ++
        (reindex_dataframes a b hr).b_office_data).map Prod.fst
    · by_cases h2 : k ∈ (reindex_dataframes a b hr).hr_data.map Prod.fst
      · rw [if_pos h1, if_pos h2, if_pos (And.intro h1 h2)]
      · have hno : ¬(k ∈ ((reindex_dataframes a b hr).a_office_data ++
            (reindex_dataframes a b hr).b_office_data).map Prod.fst ∧
            k ∈ (reindex_dataframes a b hr).hr_data.map Prod.fst) := fun hc => h2 hc.2
        rw [if_pos h1, if_neg h2, if_neg hno, Nat.mul_zero]
    · have hno : ¬(k ∈ ((reindex_dataframes a b hr).a_office_data ++
          (reindex_dataframes a b hr).b_office_data).map Prod.fst ∧
          k ∈ (reindex_dataframes a b hr).hr_data.map Prod.fst) := fun hc => h1 hc.1
      rw [if_neg h1, if_neg hno, Nat.zero_mul]
  · rw [hlen]
    refine Nat.le_min.mpr ⟨?_, ?_⟩
    · calc ((((reindex_dataframes a b hr).a_office_data ++
            (reindex_dataframes a b hr).b_office_data).map Prod.fst).toFinset ∩
          ((reindex_dataframes a b hr).hr_data.map Prod.fst).toFinset).card
          ≤ (((reindex_dataframes a b hr).a_office_data ++
            (reindex_dataframes a b hr).b_office_data).map Prod.fst).toFinset.card :=
            Finset.card_le_card Finset.inter_subset_left
        _ ≤ (((reindex_dataframes a b hr).a_office_data ++
            (reindex_dataframes a b hr).b_office_data).map Prod.fst).length :=
            List.toFinset_card_le _
        _ = a.length + b.length := by
            simp [reindex_dataframes, reindex_office]
    · calc ((((reindex_dataframes a b hr).a_office_data ++
            (reindex_dataframes a b hr).b_office_data).map Prod.fst).toFinset ∩
          ((reindex_dataframes a b hr).hr_data.map Prod.fst).toFinset).card
          ≤ (((reindex_dataframes a b hr).hr_data.map Prod.fst)).toFinset.card :=
            Finset.card_le_card Finset.inter_subset_right
        _ ≤ ((reindex_dataframes a b hr).hr_data.map Prod.fst).length :=
            List.toFinset_card_le _
        _ = hr.length := by
            simp [reindex_dataframes, reindex_hr]

/-- Office fixture rows used by the concrete witnesses. -/
def officeFixture (np : ℕ) (hrs : ℚ) (dept sal : String) (i : ℕ) : OfficeRow :=
  ⟨np, hrs, 3, 0, 0, dept, sal, i⟩

/-- Hr fixture rows used by the concrete witnesses. -/
def hrFixture (k : String) (sat ev : ℚ) (lf : ℕ) : HrRow :=
  ⟨k, sat, ev, lf⟩

/-- C1 witness: two one-row offices and a two-row hr table with unique
keys; the unified table has exactly the one key shared by both sides. -/
theorem unified_rowcount_inter_witness :
    (((reindex_dataframes [officeFixture 4 150 "IT" "low" 1]
        [officeFixture 2 130 "Sales" "low" 1]
        [hrFixture "A1" (1/2) (4/5) 0, hrFixture "C9" (1/2) (4/5) 1]).a_office_data.map
          Prod.fst).Nodup ∧
      ((reindex_dataframes [officeFixture 4 150 "IT" "low" 1]
        [officeFixture 2 130 "Sales" "low" 1]
        [hrFixture "A1" (1/2) (4/5) 0, hrFixture "C9" (1/2) (4/5) 1]).b_office_data.map
          Prod.fst).Nodup ∧
      ((reindex_dataframes [officeFixture 4 150 "IT" "low" 1]
        [officeFixture 2 130 "Sales" "low" 1]
        [hrFixture "A1" (1/2) (4/5) 0, hrFixture "C9" (1/2) (4/5) 1]).hr_data.map
          Prod.fst).Nodup) ∧
    ((generate_unified_dataset (reindex_dataframes [officeFixture 4 150 "IT" "low" 1]
        [officeFixture 2 130 "Sales" "low" 1]
        [hrFixture "A1" (1/2) (4/5) 0, hrFixture "C9" (1/2) (4/5) 1])).rows.length =
      ((((reindex_dataframes [officeFixture 4 150 "IT" "low" 1]
            [officeFixture 2 130 "Sales" "low" 1]
            [hrFixture "A1" (1/2) (4/5) 0, hrFixture "C9" (1/2) (4/5) 1]).a_office_data ++
          (reindex_dataframes [officeFixture 4 150 "IT" "low" 1]
            [officeFixture 2 130 "Sales" "low" 1]
            [hrFixture "A1" (1/2) (4/5) 0,
              hrFixture "C9" (1/2) (4/5) 1]).b_office_data).map Prod.fst).toFinset ∩
        ((reindex_dataframes [officeFixture 4 150 "IT" "low" 1]
            [officeFixture 2 130 "Sales" "low" 1]
            [hrFixture "A1" (1/2) (4/5) 0,
              hrFixture "C9" (1/2) (4/5) 1]).hr_data.map Prod.fst).toFinset).card ∧
      (∀ k : String,
        ((generate_unified_dataset (reindex_dataframes [officeFixture 4 150 "IT" "low" 1]
            [officeFixture 2 130 "Sales" "low" 1]
            [hrFixture "A1" (1/2) (4/5) 0, hrFixture "C9" (1/2) (4/5) 1])).rows.filter
              (fun r => r.key = k)).length =
          if k ∈ ((reindex_dataframes [officeFixture 4 150 "IT" "low" 1]
                [officeFixture 2 130 "Sales" "low" 1]
                [hrFixture "A1" (1/2) (4/5) 0,
                  hrFixture "C9" (1/2) (4/5) 1]).a_office_data ++
              (reindex_dataframes [officeFixture 4 150 "IT" "low" 1]
                [officeFixture 2 130 "Sales" "low" 1]
                [hrFixture "A1" (1/2) (4/5) 0,
                  hrFixture "C9" (1/2) (4/5) 1]).b_office_data).map Prod.fst ∧
              k ∈ (reindex_dataframes [officeFixture 4 150 "IT" "low" 1]
                [officeFixture 2 130 "Sales" "low" 1]
                [hrFixture "A1" (1/2) (4/5) 0,
                  hrFixture "C9" (1/2) (4/5) 1]).hr_data.map Prod.fst
          then 1 else 0) ∧
      (generate_unified_dataset (reindex_dataframes [officeFixture 4 150 "IT" "low" 1]
          [officeFixture 2 130 "Sales" "low" 1]
          [hrFixture "A1" (1/2) (4/5) 0, hrFixture "C9" (1/2) (4/5) 1])).rows.length ≤
        min (([officeFixture 4 150 "IT" "low" 1] : List OfficeRow).length +
          ([officeFixture 2 130 "Sales" "low" 1] : List OfficeRow).length)
          ([hrFixture "A1" (1/2) (4/5) 0, hrFixture "C9" (1/2) (4/5) 1] : List HrRow).length) :=
  ⟨⟨by decide, by decide, by decide⟩,
    unified_rowcount_inter _ _ _ (by decide) (by decide) (by decide)⟩

theorem reindex_office_spec (pfx : String) (t : List OfficeRow)
    (h : (t.map (fun r => r.employee_office_id)).Nodup) :
    (reindex_office pfx t).length = t.length ∧
    (reindex_office pfx t).map Prod.fst =
      t.map (fun r => pfx ++ Nat.repr r.employee_office_id) ∧
    ((reindex_office pfx t).map Prod.fst).Nodup ∧
    (reindex_office pfx t).map Prod.snd = t := by
  refine ⟨by simp [reindex_office], by simp [reindex_office], ?_,
    by simp [reindex_office, Function.comp_def]⟩
  have hk : (reindex_office pfx t).map Prod.fst =
      (t.map (fun r => r.employee_office_id)).map (fun n => pfx ++ Nat.repr n) := by
    simp [reindex_office, List.map_map, Function.comp]
  rw [hk]
  exact List.Nodup.map (prefixed_key_inj pfx) h

/-- C7: reindexing an office table with N rows and unique raw
employee_office_id values yields exactly N rows in the original order,
with N unique keys, each the office's literal prefix character ("A"
for office_A, "B" for office_B) concatenated with the decimal string
of that row's raw id. -/
theorem reindex_office_unique_keys (t : List OfficeRow)
    (h : (t.map (fun r => r.employee_office_id)).Nodup) :
    ((reindex_office "A" t).length = t.length ∧
      (reindex_office "A" t).map Prod.fst =
        t.map (fun r => "A" ++ Nat.repr r.employee_office_id) ∧
      ((reindex_office "A" t).map Prod.fst).Nodup ∧
      (reindex_office "A" t).map Prod.snd = t) ∧
    ((reindex_office "B" t).length = t.length ∧
      (reindex_office "B" t).map Prod.fst =
        t.map (fun r => "B" ++ Nat.repr r.employee_office_id) ∧
      ((reindex_office "B" t).map Prod.fst).Nodup ∧
      (reindex_office "B" t).map Prod.snd = t) :=
  ⟨reindex_office_spec "A" t h, reindex_office_spec "B" t h⟩

/-- C7 witness: a concrete two-row office table with distinct raw ids
1 and 23, reindexed under both prefixes. -/
theorem reindex_office_unique_keys_witness :
    (([officeFixture 4 150 "IT" "low" 1, officeFixture 2 130 "Sales" "low" 23].map
        (fun r => r.employee_office_id)).Nodup) ∧
    (((reindex_office "A"
        [officeFixture 4 150 "IT" "low" 1, officeFixture 2 130 "Sales" "low" 23]).length =
        ([officeFixture 4 150 "IT" "low" 1, officeFixture 2 130 "Sales" "low" 23] :
          List OfficeRow).length ∧
      (reindex_office "A"
        [officeFixture 4 150 "IT" "low" 1, officeFixture 2 130 "Sales" "low" 23]).map Prod.fst =
        [officeFixture 4 150 "IT" "low" 1, officeFixture 2 130 "Sales" "low" 23].map
          (fun r => "A" ++ Nat.repr r.employee_office_id) ∧
      ((reindex_office "A"
        [officeFixture 4 150 "IT" "low" 1,
          officeFixture 2 130 "Sales" "low" 23]).map Prod.fst).Nodup ∧
      (reindex_office "A"
        [officeFixture 4 150 "IT" "low" 1, officeFixture 2 130 "Sales" "low" 23]).map Prod.snd =
        [officeFixture 4 150 "IT" "low" 1, officeFixture 2 130 "Sales" "low" 23]) ∧
    ((reindex_office "B"
        [officeFixture 4 150 "IT" "low" 1, officeFixture 2 130 "Sales" "low" 23]).length =
        ([officeFixture 4 150 "IT" "low" 1, officeFixture 2 130 "Sales" "low" 23] :
          List OfficeRow).length ∧
      (reindex_office "B"
        [officeFixture 4 150 "IT" "low" 1, officeFixture 2 130 "Sales" "low" 23]).map Prod.fst =
        [officeFixture 4 150 "IT" "low" 1, officeFixture 2 130 "Sales" "low" 23].map
          (fun r => "B" ++ Nat.repr r.employee_office_id) ∧
      ((reindex_office "B"
        [officeFixture 4 150 "IT" "low" 1,
          officeFixture 2 130 "Sales" "low" 23]).map Prod.fst).Nodup ∧
      (reindex_office "B"
        [officeFixture 4 150 "IT" "low" 1, officeFixture 2 130 "Sales" "low" 23]).map Prod.snd =
        [officeFixture 4 150 "IT" "low" 1, officeFixture 2 130 "Sales" "low" 23])) :=
  ⟨by decide, reindex_office_unique_keys _ (by decide)⟩

/-- Office table with a colliding raw id (7 twice), used to exhibit the
missing integrity check. -/
def dupOffice : List OfficeRow :=
  [officeFixture 4 150 "IT" "low" 7, officeFixture 2 130 "Sales" "low" 7]

/-- C4 counterexample: on a table whose two rows share the raw id 7 the
reindexer does not fail; it returns the full re-keyed table, whose two
keys are both "A7" (the key list is not duplicate-free). -/
theorem reindex_accepts_duplicate_keys :
    reindex_office "A" dupOffice =
      [("A7", officeFixture 4 150 "IT" "low" 7), ("A7", officeFixture 2 130 "Sales" "low" 7)] ∧
    ¬ ((reindex_office "A" dupOffice).map Prod.fst).Nodup := by
  exact ⟨by decide, by decide⟩

/-- C4 amended: the identity reindexer performs no duplicate-key check
at all: for every office table (colliding derived keys included) and
every hr table it returns the complete re-keyed tables, keys as
specified and rows in original order. -/
theorem reindex_no_integrity_check (pfx : String) (t : List OfficeRow) (h : List HrRow) :
    (reindex_office pfx t).map Prod.fst =
      t.map (fun r => pfx ++ Nat.repr r.employee_office_id) ∧
    (reindex_office pfx t).map Prod.snd = t ∧
    (reindex_hr h).map Prod.fst = h.map (fun r => r.employee_id) ∧
    (reindex_hr h).map Prod.snd = h := by
  refine ⟨?_, ?_, ?_, ?_⟩ <;> simp [reindex_office, reindex_hr, Function.comp_def]

theorem mergeInner_mem_fst {ofc : List (String × OfficeRow)} {hrp : List (String × HrRow)}
    {x : String × OfficeRow × HrRow} (hx : x ∈ mergeInner ofc hrp) :
    x.1 ∈ ofc.map Prod.fst := by
  simp only [mergeInner, List.mem_flatMap] at hx
  obtain ⟨kr, hkr, hx⟩ := hx
  simp only [List.mem_map] at hx
  obtain ⟨kh, _, rfl⟩ := hx
  exact List.mem_map.mpr ⟨kr, hkr, rfl⟩

/-- C8: every key of a unified table starts with "A" or "B", the rows
are sorted ascending by key under pure lexical string order (under
which "A1" < "A10" < "A2"), and the raw identifier columns are not
columns of the table. -/
theorem unified_invariants (a b : List OfficeRow) (hr : List HrRow) :
    (∀ r ∈ (generate_unified_dataset (reindex_dataframes a b hr)).rows,
      (∃ s, r.key = "A" ++ s) ∨ (∃ s, r.key = "B" ++ s)) ∧
    List.Pairwise (fun r s : UnifiedRow => strLe r.key s.key = true)
      (generate_unified_dataset (reindex_dataframes a b hr)).rows ∧
    (strLt "A1" "A10" = true ∧ strLt "A10" "A2" = true) ∧
    ¬ "employee_office_id" ∈ (generate_unified_dataset (reindex_dataframes a b hr)).cols ∧
    ¬ "employee_id" ∈ (generate_unified_dataset (reindex_dataframes a b hr)).cols := by
  refine ⟨?_, ?_, ⟨by decide, by decide⟩,
    (by decide : ¬ "employee_office_id" ∈ unifiedColumns),
    (by decide : ¬ "employee_id" ∈ unifiedColumns)⟩
  · intro r hrw
    rw [generate_rows_eq] at hrw
    have hrw' := (sortLeBy_perm _ _).mem_iff.mp hrw
    simp only [List.mem_map] at hrw'
    obtain ⟨x, hx, rfl⟩ := hrw'
    have hk : x.1 ∈ ((reindex_dataframes a b hr).a_office_data ++
        (reindex_dataframes a b hr).b_office_data).map Prod.fst := mergeInner_mem_fst hx
    rw [List.map_append, List.mem_append] at hk
    rcases hk with hk | hk
    · obtain ⟨r0, _, hr0⟩ := reindex_office_keys_mem hk
      exact Or.inl ⟨Nat.repr r0.employee_office_id, hr0⟩
    · obtain ⟨r0, _, hr0⟩ := reindex_office_keys_mem hk
      exact Or.inr ⟨Nat.repr r0.employee_office_id, hr0⟩
  · rw [generate_rows_eq]
    exact pairwise_sortLeBy (fun x y : UnifiedRow => strLe_total x.key y.key)
      (fun (x y z : UnifiedRow) h1 h2 => strLe_trans h1 h2) _

/-- C9 counterexample: on entirely empty inputs the unifier does not
fail with JoinError; it returns the empty unified table (with the full
column list). -/
theorem unifier_empty_input_returns_table :
    (generate_unified_dataset (reindex_dataframes [] [] [])).rows = [] ∧
    (generate_unified_dataset (reindex_dataframes [] [] [])).cols = unifiedColumns :=
  ⟨rfl, rfl⟩

theorem mergeInner_nil : ∀ ofc : List (String × OfficeRow), mergeInner ofc [] = [] := by
  intro ofc
  induction ofc with
  | nil => rfl
  | cons p t ih => rw [mergeInner_cons, ih]; rfl

/-- C9 amended: the unifier never raises on degenerate inputs: when
both office tables are empty or the hr table is empty it returns the
empty unified table instead of failing with JoinError, and on every
input it proceeds (it is a total function). -/
theorem unifier_no_joinerror (a b : List OfficeRow) (hr : List HrRow)
    (h : (a = [] ∧ b = []) ∨ hr = []) :
    (generate_unified_dataset (reindex_dataframes a b hr)).rows = [] := by
  rcases h with ⟨rfl, rfl⟩ | rfl
  · rfl
  · rw [generate_rows_eq]
    have h0 : (reindex_dataframes a b []).hr_data = [] := rfl
    rw [h0, mergeInner_nil]
    rfl

/-- C9 witness: a nonempty office A table joined against an empty hr
table produces the empty unified table without raising. -/
theorem unifier_no_joinerror_witness :
    ((([officeFixture 4 150 "IT" "low" 1] : List OfficeRow) = [] ∧
        ([] : List OfficeRow) = []) ∨ ([] : List HrRow) = []) ∧
    (generate_unified_dataset
      (reindex_dataframes [officeFixture 4 150 "IT" "low" 1] [] [])).rows = [] :=
  ⟨Or.inr rfl, unifier_no_joinerror [officeFixture 4 150 "IT" "low" 1] [] [] (Or.inr rfl)⟩

/-! ### Ranking lemmas -/

theorem hoursDescLe_total (r s : UnifiedRow) :
    hoursDescLe r s = true ∨ hoursDescLe s r = true := by
  simp only [hoursDescLe, decide_eq_true_eq]
  exact le_total _ _

theorem hoursDescLe_trans (x y z : UnifiedRow) (h1 : hoursDescLe x y = true)
    (h2 : hoursDescLe y z = true) : hoursDescLe x z = true := by
  simp only [hoursDescLe, decide_eq_true_eq] at h1 h2 ⊢
  exact le_trans h2 h1

/-- Fixture row for the ranking claims: only hours and department are
meaningful for the ranking. -/
def rankRow (h : ℚ) (dept : String) : UnifiedRow :=
  ⟨"K", 3, h, 3, 0, 0, dept, "low", 0, 0, 0⟩

/-- Fifteen rows with distinct hours 100..114 in scrambled order, the
department of each row naming its hours value. -/
def rank15 : Dataset :=
  ⟨unifiedColumns,
    [rankRow 107 "d107", rankRow 114 "d114", rankRow 100 "d100", rankRow 105 "d105",
     rankRow 111 "d111", rankRow 102 "d102", rankRow 113 "d113", rankRow 104 "d104",
     rankRow 109 "d109", rankRow 101 "d101", rankRow 112 "d112", rankRow 106 "d106",
     rankRow 110 "d110", rankRow 103 "d103", rankRow 108 "d108"]⟩

/-- C6: the top-10 ranking returns the Department values of the 10 rows
with the largest average_monthly_hours, in descending order of hours
with ties in original row order (there is a permutation of the rows,
descending-sorted and stable on every tie class, whose first 10
departments form the result); in particular on 15 rows with distinct
hours 100..114 the result is the departments of hours 114 down to 105. -/
theorem top10_ranking_spec :
    (∀ ds : Dataset, ∃ L : List UnifiedRow,
      List.Perm L ds.rows ∧
      L.Pairwise (fun r s => s.average_monthly_hours ≤ r.average_monthly_hours) ∧
      (∀ v : ℚ, L.filter (fun r => r.average_monthly_hours = v) =
        ds.rows.filter (fun r => r.average_monthly_hours = v)) ∧
      top_10_departments_by_hours ds = (L.take 10).map (fun r => r.Department)) ∧
    top_10_departments_by_hours rank15 =
      ["d114", "d113", "d112", "d111", "d110", "d109", "d108", "d107", "d106", "d105"] := by
  constructor
  · intro ds
    refine ⟨sortLeBy hoursDescLe ds.rows, sortLeBy_perm _ _, ?_, ?_, rfl⟩
    · exact (pairwise_sortLeBy hoursDescLe_total hoursDescLe_trans ds.rows).imp
        (by simp only [hoursDescLe, decide_eq_true_eq]; exact fun h => h)
    · intro v
      exact filter_sortLeBy (fun x y hx hy => by
        simp only [decide_eq_true_eq] at hx hy
        simp only [hoursDescLe, hx, hy, decide_eq_true_eq]
        exact le_refl v) ds.rows
  · decide

/-- C10: on a table with fewer than 10 rows the ranking does not raise:
it returns one Department per row (length equals the row count),
ordered by descending hours with ties in original order. -/
theorem top10_short_table (ds : Dataset) (h : ds.rows.length < 10) :
    (top_10_departments_by_hours ds).length = ds.rows.length ∧
    ∃ L : List UnifiedRow,
      List.Perm L ds.rows ∧
      L.Pairwise (fun r s => s.average_monthly_hours ≤ r.average_monthly_hours) ∧
      (∀ v : ℚ, L.filter (fun r => r.average_monthly_hours = v) =
        ds.rows.filter (fun r => r.average_monthly_hours = v)) ∧
      top_10_departments_by_hours ds = L.map (fun r => r.Department) := by
  have hlen : (sortLeBy hoursDescLe ds.rows).length = ds.rows.length :=
    (sortLeBy_perm _ _).length_eq
  have htake : (sortLeBy hoursDescLe ds.rows).take 10 = sortLeBy hoursDescLe ds.rows :=
    List.take_of_length_le (by omega)
  refine ⟨?_, sortLeBy hoursDescLe ds.rows, sortLeBy_perm _ _, ?_, ?_, ?_⟩
  · rw [top_10_departments_by_hours, List.length_map, htake, hlen]
  · exact (pairwise_sortLeBy hoursDescLe_total hoursDescLe_trans ds.rows).imp
      (by simp only [hoursDescLe, decide_eq_true_eq]; exact fun h => h)
  · intro v
    exact filter_sortLeBy (fun x y hx hy => by
      simp only [decide_eq_true_eq] at hx hy
      simp only [hoursDescLe, hx, hy, decide_eq_true_eq]
      exact le_refl v) ds.rows
  · rw [top_10_departments_by_hours, htake]

/-- Three-row fixture for the short-table ranking witness. -/
def rank3 : Dataset :=
  ⟨unifiedColumns, [rankRow 100 "d100", rankRow 103 "d103", rankRow 101 "d101"]⟩

/-- C10 witness: a concrete three-row table, where the ranking returns
all three departments. -/
theorem top10_short_table_witness :
    rank3.rows.length < 10 ∧
    ((top_10_departments_by_hours rank3).length = rank3.rows.length ∧
      ∃ L : List UnifiedRow,
        List.Perm L rank3.rows ∧
        L.Pairwise (fun r s => s.average_monthly_hours ≤ r.average_monthly_hours) ∧
        (∀ v : ℚ, L.filter (fun r => r.average_monthly_hours = v) =
          rank3.rows.filter (fun r => r.average_monthly_hours = v)) ∧
        top_10_departments_by_hours rank3 = L.map (fun r => r.Department)) :=
  ⟨by decide, top10_short_table rank3 (by decide)⟩

/-! ### Groupby lemmas -/

theorem lookup_map_keys {β : Type} (f : ℕ → β) (g : ℕ) :
    ∀ ks : List ℕ, (ks.map (fun k => (k, f k))).lookup g =
      if g ∈ ks then some (f g) else none := by
  intro ks
  induction ks with
  | nil => rfl
  | cons k t ih =>
    by_cases hk : g = k
    · subst hk
      simp [List.lookup]
    · have hbeq : (g == k) = false := beq_eq_false_iff_ne.mpr hk
      simp [List.lookup, hbeq, hk, ih, List.mem_cons]

theorem mem_groupKeys (rows : List UnifiedRow) (g : ℕ) :
    g ∈ groupKeys rows ↔ rows.filter (fun r => r.left = g) ≠ [] := by
  rw [groupKeys, List.mem_dedup, (sortLeBy_perm _ _).mem_iff, List.mem_map]
  constructor
  · rintro ⟨r, hr, rfl⟩ hnil
    have := List.filter_eq_nil_iff.mp hnil r hr
    simp at this
  · intro hne
    rcases h : rows.filter (fun r => r.left = g) with _ | ⟨r, t⟩
    · exact absurd h hne
    · have hr : r ∈ rows.filter (fun r => r.left = g) := by rw [h]; exact List.mem_cons_self r t
      rw [List.mem_filter] at hr
      exact ⟨r, hr.1, by simpa using hr.2⟩

/-- C3: employees_metrics groups the rows by the attrition flag left;
the value looked up for a group g is present exactly when some row has
left = g (an empty group is absent), and equals the aggregate of the
rows with left = g: median of number_project, count of rows with
number_project > 5, mean and median of time_spend_company, mean of
Work_accident and mean of last_evaluation (each rounded to two
decimals), together with the exact ddof = 1 sample variance of
last_evaluation whose rounded square root is the reported standard
deviation. -/
theorem employees_metrics_spec (ds : Dataset) (hv : validate_dataset ds = true) (g : ℕ) :
    (∃ L, employees_metrics ds = Except.ok L ∧
      L.lookup g = (if (ds.rows.filter (fun r => r.left = g)).isEmpty then none
        else some (aggGroup (ds.rows.filter (fun r => r.left = g))))) ∧
    aggGroup (ds.rows.filter (fun r => r.left = g)) =
      { number_project_median := round2 (medianQ ((ds.rows.filter (fun r => r.left = g)).map
          (fun r => (r.number_project : ℚ))))
        number_project_count_bigger_5 := (((ds.rows.filter (fun r => r.left = g)).map
          (fun r => r.number_project)).filter (fun x => 5 < x)).length
        time_spend_company_mean := round2 (meanQ ((ds.rows.filter (fun r => r.left = g)).map
          (fun r => (r.time_spend_company : ℚ))))
        time_spend_company_median := round2 (medianQ ((ds.rows.filter (fun r => r.left = g)).map
          (fun r => (r.time_spend_company : ℚ))))
        work_accident_mean := round2 (meanQ ((ds.rows.filter (fun r => r.left = g)).map
          (fun r => (r.Work_accident : ℚ))))
        last_evaluation_mean := round2 (meanQ ((ds.rows.filter (fun r => r.left = g)).map
          (fun r => r.last_evaluation)))
        last_evaluation_var := sampleVar ((ds.rows.filter (fun r => r.left = g)).map
          (fun r => r.last_evaluation)) } ∧
    reported_std (aggGroup (ds.rows.filter (fun r => r.left = g))) =
      (if ((ds.rows.filter (fun r => r.left = g)).map (fun r => r.last_evaluation)).length < 2
       then none
       else some (round2R (Real.sqrt ((sampleVar ((ds.rows.filter (fun r => r.left = g)).map
         (fun r => r.last_evaluation))).getD 0 : ℝ)))) := by
  refine ⟨⟨_, by rw [employees_metrics, if_pos hv], ?_⟩, rfl, ?_⟩
  · rw [lookup_map_keys]
    by_cases he : ds.rows.filter (fun r => r.left = g) = []
    · rw [if_neg (fun hmem => (mem_groupKeys ds.rows g).mp hmem he), if_pos (by simp [he])]
    · rw [if_pos ((mem_groupKeys ds.rows g).mpr he), if_neg (by simp [List.isEmpty_iff, he])]
  · by_cases hlen : ((ds.rows.filter (fun r => r.left = g)).map
        (fun r => r.last_evaluation)).length < 2
    · simp only [List.length_map] at hlen
      simp [reported_std, aggGroup, sampleVar, hlen]
    · simp only [List.length_map] at hlen
      simp [reported_std, aggGroup, sampleVar, hlen]

/-- Two-row all-stayed fixture for the grouped-metrics witness: both
rows have left = 0, so the left = 1 group must be absent. -/
def metricsDs : Dataset :=
  ⟨unifiedColumns,
    [⟨"A1", 4, 150, 3, 0, 0, "IT", "low", 0, 1, 0⟩,
     ⟨"A2", 6, 160, 4, 1, 0, "IT", "low", 0, 1, 0⟩]⟩

/-- C3 witness: the grouped metrics applied to a concrete valid
dataset whose rows all have left = 0, looked up at group 1. -/
theorem employees_metrics_spec_witness :
    validate_dataset metricsDs = true ∧
    ((∃ L, employees_metrics metricsDs = Except.ok L ∧
      L.lookup 1 = (if (metricsDs.rows.filter (fun r => r.left = 1)).isEmpty then none
        else some (aggGroup (metricsDs.rows.filter (fun r => r.left = 1))))) ∧
    aggGroup (metricsDs.rows.filter (fun r => r.left = 1)) =
      { number_project_median := round2 (medianQ ((metricsDs.rows.filter (fun r => r.left = 1)).map
          (fun r => (r.number_project : ℚ))))
        number_project_count_bigger_5 := (((metricsDs.rows.filter (fun r => r.left = 1)).map
          (fun r => r.number_project)).filter (fun x => 5 < x)).length
        time_spend_company_mean := round2 (meanQ ((metricsDs.rows.filter (fun r => r.left = 1)).map
          (fun r => (r.time_spend_company : ℚ))))
        time_spend_company_median := round2 (medianQ ((metricsDs.rows.filter
          (fun r => r.left = 1)).map (fun r => (r.time_spend_company : ℚ))))
        work_accident_mean := round2 (meanQ ((metricsDs.rows.filter (fun r => r.left = 1)).map
          (fun r => (r.Work_accident : ℚ))))
        last_evaluation_mean := round2 (meanQ ((metricsDs.rows.filter (fun r => r.left = 1)).map
          (fun r => r.last_evaluation)))
        last_evaluation_var := sampleVar ((metricsDs.rows.filter (fun r => r.left = 1)).map
          (fun r => r.last_evaluation)) } ∧
    reported_std (aggGroup (metricsDs.rows.filter (fun r => r.left = 1))) =
      (if ((metricsDs.rows.filter (fun r => r.left = 1)).map
          (fun r => r.last_evaluation)).length < 2
       then none
       else some (round2R (Real.sqrt ((sampleVar ((metricsDs.rows.filter
         (fun r => r.left = 1)).map (fun r => r.last_evaluation))).getD 0 : ℝ))))) :=
  ⟨by decide, employees_metrics_spec metricsDs (by decide) 1⟩

/-! ### Schema validation -/

/-- Dataset missing the required column promotion_last_5years but
carrying rows that exercise all four compared pivot combinations. -/
def missingColDs : Dataset :=
  ⟨["number_project", "average_monthly_hours", "time_spend_company", "Work_accident",
    "Department", "salary", "satisfaction_level", "last_evaluation", "left"],
   [⟨"A1", 2, 150, 3, 0, 0, "IT", "high", 0, 1, 0⟩,
    ⟨"A2", 3, 140, 3, 0, 0, "IT", "medium", 0, 1, 0⟩,
    ⟨"A3", 4, 130, 3, 0, 0, "IT", "low", 0, 1, 1⟩,
    ⟨"A4", 5, 120, 3, 0, 0, "IT", "high", 0, 1, 1⟩]⟩

/-- C5 counterexample: with the required column promotion_last_5years
missing, the validator does report it, but the department salary pivot
query still computes a result instead of failing with SchemaError:
only the grouped-metrics entry point is gated. -/
theorem query_without_schema_check :
    validate_dataset missingColDs = false ∧
    "promotion_last_5years" ∈ missing_columns missingColDs ∧
    (median_salaries_by_department missingColDs).isOk = true :=
  ⟨by decide, by decide, by decide⟩

/-- C5 amended: the schema check guards the grouped-metrics entry
point: for every dataset missing any required column, the validator
returns false listing that column among the missing ones, and
employees_metrics fails instead of computing a result. -/
theorem schema_gate_on_metrics (ds : Dataset) (c : String)
    (hc : c ∈ required_columns) (hm : ¬ c ∈ ds.cols) :
    validate_dataset ds = false ∧
    c ∈ missing_columns ds ∧
    employees_metrics ds = Except.error "Dataset validation failed" := by
  have hmem : c ∈ missing_columns ds := by
    rw [missing_columns, List.mem_filter]
    exact ⟨hc, by simpa using hm⟩
  have hne : missing_columns ds ≠ [] := by
    intro h
    rw [h] at hmem
    exact absurd hmem (List.not_mem_nil c)
  have hv : validate_dataset ds = false := by
    rw [validate_dataset]
    exact decide_eq_false hne
  refine ⟨hv, hmem, ?_⟩
  rw [employees_metrics, if_neg (by rw [hv]; exact Bool.false_ne_true)]

/-- C5 witness: the concrete dataset missing promotion_last_5years,
on which employees_metrics raises. -/
theorem schema_gate_on_metrics_witness :
    "promotion_last_5years" ∈ required_columns ∧
    ¬ "promotion_last_5years" ∈ missingColDs.cols ∧
    (validate_dataset missingColDs = false ∧
      "promotion_last_5years" ∈ missing_columns missingColDs ∧
      employees_metrics missingColDs = Except.error "Dataset validation failed") :=
  ⟨by decide, by decide,
    schema_gate_on_metrics missingColDs "promotion_last_5years" (by decide) (by decide)⟩

/-! ### Department salary pivot -/

theorem mem_departmentsSorted (rows : List UnifiedRow) (d : String) :
    d ∈ departmentsSorted rows ↔ d ∈ rows.map (fun r => r.Department) := by
  rw [departmentsSorted, List.mem_dedup, (sortLeBy_perm _ _).mem_iff]

theorem option_match_lt_iff (o1 o2 : Option ℚ) :
    ((match o1, o2 with
      | some a, some b => decide (a < b)
      | _, _ => false) = true) ↔ ∃ x y, o1 = some x ∧ o2 = some y ∧ x < y := by
  cases o1 <;> cases o2 <;> simp

theorem salaryCondition_iff (rows : List UnifiedRow) (d : String) :
    salaryCondition rows d = true ↔
      ((∃ x y, pivotCell rows d 0 "high" = some x ∧
          pivotCell rows d 0 "medium" = some y ∧ x < y) ∨
       (∃ x y, pivotCell rows d 1 "low" = some x ∧
          pivotCell rows d 1 "high" = some y ∧ x < y)) := by
  rw [salaryCondition, Bool.or_eq_true, option_match_lt_iff, option_match_lt_iff]

/-- C2 amended: when each of the four compared (left, salary)
combinations occurs in at least one row, the department salary pivot
does not raise; it keeps exactly the departments for which the stayed
high-salary median is strictly below the stayed medium-salary median
or the left low-salary median is strictly below the left high-salary
median, a department with an absent compared cell failing that
comparison; every reported cell is the median of the matching rows'
average_monthly_hours rounded to two decimals, absent when no row
matches. -/
theorem median_salaries_spec (ds : Dataset)
    (h1 : (0, "high") ∈ observedCombos ds.rows)
    (h2 : (0, "medium") ∈ observedCombos ds.rows)
    (h3 : (1, "low") ∈ observedCombos ds.rows)
    (h4 : (1, "high") ∈ observedCombos ds.rows) :
    ∃ L, median_salaries_by_department ds = Except.ok L ∧
      (∀ d, d ∈ L.map Prod.fst ↔ (d ∈ ds.rows.map (fun r => r.Department) ∧
        ((∃ x y, pivotCell ds.rows d 0 "high" = some x ∧
            pivotCell ds.rows d 0 "medium" = some y ∧ x < y) ∨
         (∃ x y, pivotCell ds.rows d 1 "low" = some x ∧
            pivotCell ds.rows d 1 "high" = some y ∧ x < y)))) ∧
      (∀ d cells, (d, cells) ∈ L → ∀ lf sal v, ((lf, sal), v) ∈ cells →
        pivotCell ds.rows d lf sal = some v) ∧
      (∀ d lf sal, pivotCell ds.rows d lf sal =
        (if ((ds.rows.filter (fun r => r.Department = d ∧ r.left = lf ∧ r.salary = sal)).map
            (fun r => r.average_monthly_hours)).isEmpty then none
         else some (round2 (medianQ ((ds.rows.filter
            (fun r => r.Department = d ∧ r.left = lf ∧ r.salary = sal)).map
              (fun r => r.average_monthly_hours)))))) := by
  refine ⟨((departmentsSorted ds.rows).filter (fun d => salaryCondition ds.rows d)).map
      (fun d => (d, (observedCombos ds.rows).dedup.filterMap
        (fun c => (pivotCell ds.rows d c.1 c.2).map (fun v => (c, v))))), ?_, ?_, ?_,
    fun d lf sal => rfl⟩
  · rw [median_salaries_by_department, if_neg (not_not_intro h1), if_neg (not_not_intro h2),
      if_neg (not_not_intro h3), if_neg (not_not_intro h4)]
  · intro d
    have hfst : (((departmentsSorted ds.rows).filter
        (fun d => salaryCondition ds.rows d)).map
        (fun d => (d, (observedCombos ds.rows).dedup.filterMap
          (fun c => (pivotCell ds.rows d c.1 c.2).map (fun v => (c, v)))))).map Prod.fst =
        (departmentsSorted ds.rows).filter (fun d => salaryCondition ds.rows d) := by
      rw [List.map_map]
      exact List.map_id _
    rw [hfst, List.mem_filter, mem_departmentsSorted, salaryCondition_iff]
  · intro d cells hdc lf sal v hcv
    rw [List.mem_map] at hdc
    obtain ⟨d0, _, hd0⟩ := hdc
    obtain ⟨rfl, rfl⟩ : d0 = d ∧ (observedCombos ds.rows).dedup.filterMap
        (fun c => (pivotCell ds.rows d0 c.1 c.2).map (fun v => (c, v))) = cells := by
      exact ⟨congrArg Prod.fst hd0, congrArg Prod.snd hd0⟩
    rw [List.mem_filterMap] at hcv
    obtain ⟨c, _, hc⟩ := hcv
    rw [Option.map_eq_some'] at hc
    obtain ⟨w, hw, hcw⟩ := hc
    obtain ⟨rfl, rfl⟩ : c = (lf, sal) ∧ w = v :=
      ⟨congrArg Prod.fst hcw, congrArg Prod.snd hcw⟩
    exact hw

/-- Fixture with one department covering all four compared pivot
combinations. -/
def pivotDs : Dataset :=
  ⟨unifiedColumns,
   [⟨"A1", 2, 150, 3, 0, 0, "IT", "high", 0, 1, 0⟩,
    ⟨"A2", 3, 140, 3, 0, 0, "IT", "medium", 0, 1, 0⟩,
    ⟨"A3", 4, 130, 3, 0, 0, "IT", "low", 0, 1, 1⟩,
    ⟨"A4", 5, 120, 3, 0, 0, "IT", "high", 0, 1, 1⟩]⟩

/-- C2 witness: the pivot on a concrete table observing all four
compared combinations. -/
theorem median_salaries_spec_witness :
    ((0, "high") ∈ observedCombos pivotDs.rows ∧
      (0, "medium") ∈ observedCombos pivotDs.rows ∧
      (1, "low") ∈ observedCombos pivotDs.rows ∧
      (1, "high") ∈ observedCombos pivotDs.rows) ∧
    (∃ L, median_salaries_by_department pivotDs = Except.ok L ∧
      (∀ d, d ∈ L.map Prod.fst ↔ (d ∈ pivotDs.rows.map (fun r => r.Department) ∧
        ((∃ x y, pivotCell pivotDs.rows d 0 "high" = some x ∧
            pivotCell pivotDs.rows d 0 "medium" = some y ∧ x < y) ∨
         (∃ x y, pivotCell pivotDs.rows d 1 "low" = some x ∧
            pivotCell pivotDs.rows d 1 "high" = some y ∧ x < y)))) ∧
      (∀ d cells, (d, cells) ∈ L → ∀ lf sal v, ((lf, sal), v) ∈ cells →
        pivotCell pivotDs.rows d lf sal = some v) ∧
      (∀ d lf sal, pivotCell pivotDs.rows d lf sal =
        (if ((pivotDs.rows.filter (fun r => r.Department = d ∧ r.left = lf ∧
            r.salary = sal)).map (fun r => r.average_monthly_hours)).isEmpty then none
         else some (round2 (medianQ ((pivotDs.rows.filter
            (fun r => r.Department = d ∧ r.left = lf ∧ r.salary = sal)).map
              (fun r => r.average_monthly_hours))))))) :=
  ⟨⟨by decide, by decide, by decide, by decide⟩,
    median_salaries_spec pivotDs (by decide) (by decide) (by decide) (by decide)⟩

/-- All-left fixture: every row has left = 1, so the (0, high) pivot
column does not exist. -/
def allLeftDs : Dataset :=
  ⟨unifiedColumns, [⟨"A1", 2, 150, 3, 0, 0, "IT", "high", 0, 1, 1⟩]⟩

/-- C2 counterexample: on a unified table in which no row has left = 0
and salary = high, the department salary pivot raises KeyError on the
missing (0, high) column instead of treating the absence as a failed
condition. -/
theorem median_salaries_raises_on_missing_combo :
    median_salaries_by_department allLeftDs = Except.error "KeyError: (0, high)" := by
  rfl
